import Mathlib

/-!
Shallow embedding of the cart / checkout / coffee-builder core of the
Demo Shop repository (React storefront).  The definitions below are
translated from `src/frontend/src/context/CartContext.js` (the cart
store), `src/frontend/src/pages/Cart.js` (the checkout workflow) and
`src/frontend/src/pages/CoffeeBuilder.js` (the custom-coffee price
builder).  JavaScript numbers are modelled as `ℚ` for prices (every
constant in the sources is an exact multiple of 0.25, so binary
floating point and `ℚ` agree on all sums appearing here) and as `ℤ`
for quantities and indices.  A JavaScript object value that may be
`null` is modelled as an `Option`: `none` is `null`/`undefined`
(falsy), `some` is any object — note that in JavaScript an *empty*
object is still truthy, which the embedding reflects by `Option.isNone`
being the translation of the `!item.customCoffee` test in the source.
-/

namespace DemoShop

/-- A customization payload (`customCoffee` in the source): an opaque
JavaScript object, modelled by its list of key/value entries.  The cart
code never inspects the contents, only the truthiness of the field. -/
structure Customization where
  entries : List (String × String)
deriving DecidableEq, Repr

/-- Catalog product shape `{ _id, name, category, price, description, image, inStock }`. -/
structure Product where
  pid : String
  name : String
  category : String
  price : ℚ
  description : String
  image : String
  inStock : Bool
deriving DecidableEq, Repr

/-- A cart line item: all product fields (spread by
`{ ...product, quantity, customCoffee }` in `addToCart`) plus the
quantity and the optional customization. -/
structure CartItem where
  pid : String
  name : String
  category : String
  price : ℚ
  description : String
  image : String
  inStock : Bool
  quantity : ℤ
  customCoffee : Option Customization
deriving DecidableEq, Repr

/-- The entry appended by `addToCart`: `{ ...product, quantity, customCoffee }`. -/
def mkItem (product : Product) (quantity : ℤ) (customCoffee : Option Customization) : CartItem :=
  { pid := product.pid, name := product.name, category := product.category,
    price := product.price, description := product.description,
    image := product.image, inStock := product.inStock,
    quantity := quantity, customCoffee := customCoffee }

/-- Apply `f` to the `quantity` field of the element at position `i`,
leaving every other element and every other field unchanged.  This is
the functional reading of the in-place
`newCart[i].quantity += q` / `newCart[i].quantity = q` updates (the
source first shallow-copies the array, then mutates the shared entry
object; the resulting cart value is the one computed here). -/
def withQty (f : ℤ → ℤ) : List CartItem → ℕ → List CartItem
  | [], _ => []
  | it :: rest, 0 => { it with quantity := f it.quantity } :: rest
  | it :: rest, n + 1 => it :: withQty f rest n

/-- Source function `addToCart(product, quantity = 1, customCoffee = null)`
from `CartContext.js`:

```js
const existingItemIndex = prevCart.findIndex(
  item => item._id === product._id && !item.customCoffee
);
if (existingItemIndex > -1 && !customCoffee) {
  const newCart = [...prevCart];
  newCart[existingItemIndex].quantity += quantity;
  return newCart;
} else {
  return [...prevCart, { ...product, quantity, customCoffee }];
}
```
-/
def addToCart (prevCart : List CartItem) (product : Product) (quantity : ℤ)
    (customCoffee : Option Customization) : List CartItem :=
  match prevCart.findIdx? (fun item => item.pid == product.pid && item.customCoffee.isNone) with
  | some existingItemIndex =>
    if customCoffee.isNone then
      withQty (· + quantity) prevCart existingItemIndex
    else
      prevCart ++ [mkItem product quantity customCoffee]
  | none => prevCart ++ [mkItem product quantity customCoffee]

/-- Source function `removeFromCart(index)`: `prevCart.filter((_, i) => i !== index)`.
The JavaScript index may be any integer; positions compare by numeric
equality. -/
def removeFromCart (prevCart : List CartItem) (index : ℤ) : List CartItem :=
  ((prevCart.enum).filter (fun p => ((p.1 : ℤ) != index))).map Prod.snd

/-- Source function `clearCart()`: `setCart([])`. -/
def clearCart : List CartItem := []

/-- Source function `updateQuantity(index, quantity)`:

```js
if (quantity <= 0) { removeFromCart(index); return; }
setCart(prevCart => {
  const newCart = [...prevCart];
  newCart[index].quantity = quantity;
  return newCart;
});
```

The assignment `newCart[index].quantity = quantity` dereferences
`newCart[index]`; for an integer index outside `[0, length)` that is
`undefined` and the assignment throws a `TypeError`, modelled by
`Except.error`. -/
def updateQuantity (prevCart : List CartItem) (index : ℤ) (quantity : ℤ) :
    Except String (List CartItem) :=
  if quantity ≤ 0 then
    .ok (removeFromCart prevCart index)
  else if 0 ≤ index ∧ index < (prevCart.length : ℤ) then
    .ok (withQty (fun _ => quantity) prevCart index.toNat)
  else
    .error "TypeError"

/-- Source function `getCartTotal()`: `cart.reduce((total, item) => total + (item.price * item.quantity), 0)`. -/
def getCartTotal (cart : List CartItem) : ℚ :=
  cart.foldl (fun total item => total + item.price * (item.quantity : ℚ)) 0

/-- Source function `getCartCount()`: `cart.reduce((count, item) => count + item.quantity, 0)`. -/
def getCartCount (cart : List CartItem) : ℤ :=
  cart.foldl (fun count item => count + item.quantity) 0

/-! Persistence (`CartContext.js` mount effect):

```js
const savedCart = localStorage.getItem("cart");
if (savedCart) { setCart(JSON.parse(savedCart)); }
```

The durable slot under the fixed key `"cart"` holds a string or is
absent.  For the load path only three shapes of stored string matter:
the empty string (the one falsy string in JavaScript), a valid JSON
serialization of some cart, and unparseable data.  `JSON.parse` throws
a `SyntaxError` on the empty string and on unparseable data. -/

/-- The string found in the durable `"cart"` slot, abstracted by how
`JSON.parse` treats it. -/
inductive StoredString where
  /-- The empty string — falsy, and not valid JSON. -/
  | emptyStr : StoredString
  /-- A valid JSON serialization of the cart `c`. -/
  | goodJson (c : List CartItem) : StoredString
  /-- Unparseable (corrupt) data. -/
  | badJson : StoredString
deriving DecidableEq, Repr

/-- Behaviour of `JSON.parse` on a stored string: succeeds exactly on a valid
serialization, otherwise throws a `SyntaxError`. -/
def jsonParse : StoredString → Except String (List CartItem)
  | .emptyStr => .error "SyntaxError"
  | .goodJson c => .ok c
  | .badJson => .error "SyntaxError"

/-- JavaScript truthiness of a string: every string except `""` is truthy. -/
def truthyStr : StoredString → Bool
  | .emptyStr => false
  | _ => true

/-- The cart state after the mount effect, given the content of the
`"cart"` slot (`none` = `localStorage.getItem` returned `null`).  The
initial state is `[]`; the effect overwrites it only when the slot is
present and truthy, and any exception of `JSON.parse` propagates out of
the effect (there is no `try`/`catch` in the source). -/
def loadCart : Option StoredString → Except String (List CartItem)
  | none => .ok []
  | some s => if truthyStr s then jsonParse s else .ok []

/-! Checkout workflow (`Cart.js`). -/

/-- Outcome of the `fetch` call to the orders endpoint as seen by
`handleCheckout`: either an HTTP response arrived (with some status
code) or the promise rejected with a network error. -/
inductive FetchOutcome where
  | response (status : ℕ) : FetchOutcome
  | netError (msg : String) : FetchOutcome
deriving DecidableEq, Repr

/-- Meaning of `response.ok` per the fetch specification: status in the inclusive
range 200–299. -/
def responseOk (status : ℕ) : Bool := 200 ≤ status && status < 300

/-- Awaiting the fetch: a received response is a normal value, a
network failure is a thrown exception. -/
def awaitFetch : FetchOutcome → Except String ℕ
  | .response status => .ok status
  | .netError msg => .error msg

/-- The state `handleCheckout` leaves behind: the toast message shown,
the cart (never mutated by `handleCheckout` itself), and whether the
success timeout (`clearCart(); setShowCheckout(false)` after 2000 ms)
was scheduled. -/
structure CheckoutResult where
  toast : String
  cart : List CartItem
  clearScheduled : Bool
deriving DecidableEq, Repr

/-- Source function `handleCheckout` from `Cart.js`, as a function of the cart and of
the fetch outcome:

```js
try {
  const response = await fetch("/api/orders", {...});
  if (response.ok) {
    setToast("Order placed successfully! ...");
    setTimeout(() => { clearCart(); setShowCheckout(false); }, 2000);
  } else {
    setToast("Failed to place order. Please try again.");
  }
} catch (error) {
  console.error("Error placing order:", error);
  setToast("Error placing order. Please try again.");
}
```

The whole body is wrapped in `try`/`catch`, so the function itself
never re-throws: its result is always `Except.ok`. -/
def handleCheckout (cart : List CartItem) (outcome : FetchOutcome) :
    Except String CheckoutResult :=
  match awaitFetch outcome with
  | .ok status =>
    if responseOk status then
      .ok { toast := "Order placed successfully!", cart := cart, clearScheduled := true }
    else
      .ok { toast := "Failed to place order. Please try again.", cart := cart,
            clearScheduled := false }
  | .error _ =>
    .ok { toast := "Error placing order. Please try again.", cart := cart,
          clearScheduled := false }

/-! The cart page view (`Cart.js` rendering and event handling).

The component state relevant to the double-submit question is the cart
and the `showCheckout` flag.  The rendering shows the
"Proceed to Checkout" button when the cart is non-empty and
`showCheckout` is false, and the "Place Order" / "Cancel" buttons when
the cart is non-empty and `showCheckout` is true.  There is no
in-flight flag anywhere in the component: clicking "Place Order" always
calls `handleCheckout`, which immediately issues the
`fetch` call to the orders endpoint.  The model instruments the state with a
counter of the network calls issued so far and not yet resolved. -/

structure CartView where
  cart : List CartItem
  showCheckout : Bool
  inFlight : ℕ
deriving DecidableEq, Repr

/-- User events on the cart page. -/
inductive CartEvent where
  /-- Click "Proceed to Checkout" (rendered iff cart non-empty and not `showCheckout`). -/
  | proceed : CartEvent
  /-- Click "Place Order" (rendered iff cart non-empty and `showCheckout`);
  fires `handleCheckout`, which issues one fetch. -/
  | placeOrder : CartEvent
  /-- Click "Cancel" (rendered iff cart non-empty and `showCheckout`). -/
  | cancel : CartEvent
deriving DecidableEq, Repr

/-- One step of the cart page: an event has an effect exactly when its
button is rendered.  Note that the guard of `placeOrder` does not
consult `inFlight` — the source has no such flag, and the `Place Order`
button stays rendered while a submission is pending. -/
def cartViewStep (s : CartView) : CartEvent → CartView
  | .proceed =>
    if s.cart.length ≠ 0 ∧ s.showCheckout = false then { s with showCheckout := true } else s
  | .placeOrder =>
    if s.cart.length ≠ 0 ∧ s.showCheckout = true then { s with inFlight := s.inFlight + 1 } else s
  | .cancel =>
    if s.cart.length ≠ 0 ∧ s.showCheckout = true then { s with showCheckout := false } else s

/-- Run a sequence of user events. -/
def cartViewRun (s : CartView) (evs : List CartEvent) : CartView :=
  evs.foldl cartViewStep s

/-! Custom-coffee builder (`CoffeeBuilder.js`). -/

/-- Source function `calculatePrice` from `CoffeeBuilder.js`:

```js
const basePrice = 3.50;
const addOns = { sugar: 0.25, milk: { regular: 0.50, oat: 0.75 }, coffee: 0.75, chocolate: 0.50 };
let price = basePrice;
price += sugar * addOns.sugar;
if (milk === "regular") price += addOns.milk.regular;
if (milk === "oat") price += addOns.milk.oat;
price += (coffee - 1) * addOns.coffee;
price += chocolate * addOns.chocolate;
return price;
```

All constants are exact multiples of 0.25, so the IEEE-754 arithmetic
of the source is exact and agrees with `ℚ`. -/
def calculatePrice (sugar : ℤ) (milk : String) (coffee : ℤ) (chocolate : ℤ) : ℚ :=
  3.50 + (sugar : ℚ) * 0.25
    + (if milk = "regular" then 0.50 else 0)
    + (if milk = "oat" then 0.75 else 0)
    + ((coffee : ℚ) - 1) * 0.75
    + (chocolate : ℚ) * 0.50

/-! Reachable cart states.

The cart starts empty (`useState([])`) and is only changed by the
store operations.  `updateQuantity` contributes a new state only when
it does not throw. -/

/-- Cart states reachable from the initial empty cart through the
store operations. -/
inductive ReachableCart : List CartItem → Prop where
  | empty : ReachableCart []
  | add (c : List CartItem) (p : Product) (q : ℤ) (cc : Option Customization) :
      ReachableCart c → ReachableCart (addToCart c p q cc)
  | remove (c : List CartItem) (i : ℤ) :
      ReachableCart c → ReachableCart (removeFromCart c i)
  | update (c : List CartItem) (i q : ℤ) (c' : List CartItem) :
      ReachableCart c → updateQuantity c i q = .ok c' → ReachableCart c'
  | clear (c : List CartItem) : ReachableCart c → ReachableCart clearCart

/-- Two entries clash when they share a product id and both lack a
customization; the cart invariant forbids any such pair. -/
def plainClash (a b : CartItem) : Prop :=
  a.pid = b.pid ∧ a.customCoffee = none ∧ b.customCoffee = none

/-- The no-duplicate-plain-entry invariant of the cart. -/
def CartInv (c : List CartItem) : Prop :=
  List.Pairwise (fun a b => ¬ plainClash a b) c

/-- Iterated `addToCart` with no customization: one call per element of
`adds`, each giving a product and a requested quantity. -/
def applyAdds (cart : List CartItem) (adds : List (Product × ℤ)) : List CartItem :=
  adds.foldl (fun c pq => addToCart c pq.1 pq.2 none) cart

/-- The key of an entry for the duplicate-detection invariant: product
id together with presence of a customization. `withQty` only touches
quantities, so it preserves the keys pointwise. -/
def itemKey (it : CartItem) : String × Option Customization := (it.pid, it.customCoffee)

/-- Remove the element at (integer) position `i`; out-of-range `i`
(including every negative `i`) leaves the list unchanged.  Proved below
to coincide with the source `filter((_, i) => i !== index)`. -/
def dropIdxZ {α : Type*} : List α → ℤ → List α
  | [], _ => []
  | a :: l, i => if i = 0 then l else a :: dropIdxZ l (i - 1)

/-! Helper lemmas. -/

theorem foldl_add_eq_add_sum {α M : Type*} [AddCommMonoid M] (f : α → M) :
    ∀ (l : List α) (init : M), l.foldl (fun acc x => acc + f x) init = init + (l.map f).sum
  | [], init => by simp
  | x :: l, init => by
    simp only [List.foldl_cons, List.map_cons, List.sum_cons]
    rw [foldl_add_eq_add_sum f l (init + f x), add_assoc]

theorem withQty_length (f : ℤ → ℤ) : ∀ (c : List CartItem) (i : ℕ),
    (withQty f c i).length = c.length
  | [], _ => rfl
  | _ :: _, 0 => rfl
  | _ :: rest, n + 1 => by simp [withQty, withQty_length f rest n]

theorem withQty_at_append (f : ℤ → ℤ) :
    ∀ (c₁ : List CartItem) (e : CartItem) (c₂ : List CartItem),
      withQty f (c₁ ++ e :: c₂) c₁.length = c₁ ++ { e with quantity := f e.quantity } :: c₂
  | [], _, _ => rfl
  | a :: c₁, e, c₂ => by
    show a :: withQty f (c₁ ++ e :: c₂) c₁.length
      = a :: (c₁ ++ { e with quantity := f e.quantity } :: c₂)
    rw [withQty_at_append f c₁ e c₂]

theorem withQty_map_key (f : ℤ → ℤ) : ∀ (c : List CartItem) (i : ℕ),
    (withQty f c i).map itemKey = c.map itemKey
  | [], _ => rfl
  | _ :: _, 0 => rfl
  | a :: rest, n + 1 => by simp [withQty, itemKey, withQty_map_key f rest n]

theorem cartInv_iff_key (c : List CartItem) :
    CartInv c ↔ List.Pairwise
      (fun x y : String × Option Customization => ¬ (x.1 = y.1 ∧ x.2 = none ∧ y.2 = none))
      (c.map itemKey) := by
  rw [List.pairwise_map]
  exact Iff.rfl

theorem cartInv_withQty (f : ℤ → ℤ) (c : List CartItem) (i : ℕ) (h : CartInv c) :
    CartInv (withQty f c i) := by
  rw [cartInv_iff_key, withQty_map_key, ← cartInv_iff_key]
  exact h

theorem cartInv_append_custom (c : List CartItem) (it : CartItem)
    (hit : it.customCoffee ≠ none) (h : CartInv c) : CartInv (c ++ [it]) := by
  rw [CartInv, List.pairwise_append]
  refine ⟨h, List.pairwise_singleton _ _, ?_⟩
  intro a _ b hb
  rw [List.mem_singleton] at hb
  subst hb
  rintro ⟨-, -, hnone⟩
  exact hit hnone

theorem cartInv_append_plain (c : List CartItem) (it : CartItem)
    (hno : ∀ a ∈ c, ¬ (a.pid = it.pid ∧ a.customCoffee = none))
    (h : CartInv c) : CartInv (c ++ [it]) := by
  rw [CartInv, List.pairwise_append]
  refine ⟨h, List.pairwise_singleton _ _, ?_⟩
  intro a ha b hb
  rw [List.mem_singleton] at hb
  subst hb
  rintro ⟨hpid, hca, -⟩
  exact hno a ha ⟨hpid, hca⟩

theorem matchBool_eq_false_iff (b : CartItem) (pid : String) :
    ((b.pid == pid && b.customCoffee.isNone) = false) ↔ ¬ (b.pid = pid ∧ b.customCoffee = none) := by
  rw [Bool.and_eq_false_iff]
  constructor
  · rintro (h | h) ⟨h1, h2⟩
    · rw [beq_eq_false_iff_ne] at h; exact h h1
    · rw [h2] at h; simp at h
  · intro h
    by_cases hp : b.pid = pid
    · right
      rcases hcc : b.customCoffee with _ | x
      · exact absurd ⟨hp, hcc⟩ h
      · simp
    · left
      rw [beq_eq_false_iff_ne]
      exact hp

/-- Branch lemma: when a plain entry carrying the product id exists at
index `i` and the call passes no customization, `addToCart` merges. -/
theorem addToCart_merge_eq (c : List CartItem) (p : Product) (q : ℤ) (i : ℕ)
    (hfind : c.findIdx? (fun item => item.pid == p.pid && item.customCoffee.isNone) = some i) :
    addToCart c p q none = withQty (· + q) c i := by
  simp only [addToCart, hfind, Option.isNone_none, if_true]

/-- Branch lemma: with a (truthy) customization object, `addToCart`
always appends, whether or not a matching plain entry exists. -/
theorem addToCart_custom_eq (c : List CartItem) (p : Product) (q : ℤ) (x : Customization) :
    addToCart c p q (some x) = c ++ [mkItem p q (some x)] := by
  rcases hfind : c.findIdx? (fun item => item.pid == p.pid && item.customCoffee.isNone) with _ | i
  · simp only [addToCart, hfind]
  · simp only [addToCart, hfind, Option.isNone_some, Bool.false_eq_true, if_false]

/-- Branch lemma: when no plain entry carrying the product id exists,
`addToCart` appends. -/
theorem addToCart_no_match_eq (c : List CartItem) (p : Product) (q : ℤ)
    (cc : Option Customization)
    (hfind : c.findIdx? (fun item => item.pid == p.pid && item.customCoffee.isNone) = none) :
    addToCart c p q cc = c ++ [mkItem p q cc] := by
  simp only [addToCart, hfind]

theorem cartInv_addToCart (c : List CartItem) (p : Product) (q : ℤ)
    (cc : Option Customization) (h : CartInv c) : CartInv (addToCart c p q cc) := by
  rcases hfind : c.findIdx? (fun item => item.pid == p.pid && item.customCoffee.isNone) with _ | i
  · have hno : ∀ a ∈ c, ¬ (a.pid = p.pid ∧ a.customCoffee = none) := by
      intro a ha
      rw [← matchBool_eq_false_iff]
      exact List.findIdx?_eq_none_iff.mp hfind a ha
    rw [addToCart_no_match_eq c p q cc hfind]
    rcases cc with _ | x
    · exact cartInv_append_plain c (mkItem p q none) (by simpa [mkItem] using hno) h
    · exact cartInv_append_custom c (mkItem p q (some x)) (by simp [mkItem]) h
  · rcases cc with _ | x
    · rw [addToCart_merge_eq c p q i hfind]
      exact cartInv_withQty (· + q) c i h
    · rw [addToCart_custom_eq c p q x]
      exact cartInv_append_custom c (mkItem p q (some x)) (by simp [mkItem]) h

theorem dropIdxZ_neg {α : Type*} : ∀ (l : List α) (i : ℤ), i < 0 → dropIdxZ l i = l
  | [], _, _ => rfl
  | a :: l, i, h => by
    rw [dropIdxZ, if_neg (by omega)]
    rw [dropIdxZ_neg l (i - 1) (by omega)]

theorem dropIdxZ_ge {α : Type*} : ∀ (l : List α) (i : ℤ), (l.length : ℤ) ≤ i → dropIdxZ l i = l
  | [], _, _ => rfl
  | a :: l, i, h => by
    rw [List.length_cons] at h
    rw [dropIdxZ, if_neg (by push_cast at h ⊢; omega)]
    rw [dropIdxZ_ge l (i - 1) (by push_cast at h ⊢; omega)]

theorem dropIdxZ_sublist {α : Type*} : ∀ (l : List α) (i : ℤ), List.Sublist (dropIdxZ l i) l
  | [], _ => List.Sublist.refl []
  | a :: l, i => by
    rw [dropIdxZ]
    split
    · exact List.sublist_cons_self a l
    · exact List.Sublist.cons₂ a (dropIdxZ_sublist l (i - 1))

theorem dropIdxZ_in_range {α : Type*} : ∀ (l : List α) (i : ℤ), 0 ≤ i → i < (l.length : ℤ) →
    dropIdxZ l i = l.take i.toNat ++ l.drop (i.toNat + 1)
  | [], i, h0, hlt => by simp at hlt; omega
  | a :: l, i, h0, hlt => by
    rw [dropIdxZ]
    by_cases hi : i = 0
    · subst hi
      simp
    · rw [if_neg hi]
      have h1 : (0:ℤ) ≤ i - 1 := by omega
      have h2 : i - 1 < (l.length : ℤ) := by
        rw [List.length_cons] at hlt; push_cast at hlt; omega
      rw [dropIdxZ_in_range l (i - 1) h1 h2]
      have hT : i.toNat = (i - 1).toNat + 1 := by omega
      rw [hT]
      simp

theorem removeAux (c : List CartItem) : ∀ (k : ℕ) (i : ℤ),
    ((c.enumFrom k).filter (fun p => ((p.1 : ℤ) != i))).map Prod.snd = dropIdxZ c (i - k) := by
  induction c with
  | nil => intro k i; rfl
  | cons a c ih =>
    intro k i
    rw [List.enumFrom_cons, List.filter_cons]
    have harg : i - ((k + 1 : ℕ) : ℤ) = i - (k : ℤ) - 1 := by push_cast; ring
    by_cases hk : (k : ℤ) = i
    · rw [if_neg (by simp [hk])]
      rw [ih (k + 1) i, harg]
      simp only [dropIdxZ, if_pos (show i - (k:ℤ) = 0 by omega)]
      exact dropIdxZ_neg c _ (by omega)
    · rw [if_pos (by simpa using hk), List.map_cons]
      rw [ih (k + 1) i, harg]
      simp only [dropIdxZ, if_neg (show ¬ (i - (k:ℤ) = 0) by omega)]

theorem removeFromCart_eq_dropIdxZ (c : List CartItem) (i : ℤ) :
    removeFromCart c i = dropIdxZ c i := by
  rw [removeFromCart]
  have h : c.enum = c.enumFrom 0 := rfl
  rw [h, removeAux c 0 i]
  norm_num

theorem cartInv_removeFromCart (c : List CartItem) (i : ℤ) (h : CartInv c) :
    CartInv (removeFromCart c i) := by
  rw [removeFromCart_eq_dropIdxZ]
  exact List.Pairwise.sublist (dropIdxZ_sublist c i) h

theorem findIdx?_prefix_none_cons_true {α : Type*} {p : α → Bool} (l₁ : List α) (a : α)
    (l₂ : List α) (h₁ : ∀ b ∈ l₁, p b = false) (ha : p a = true) :
    (l₁ ++ a :: l₂).findIdx? p = some l₁.length := by
  rw [List.findIdx?_append, List.findIdx?_eq_none_iff.mpr h₁, List.findIdx?_cons, if_pos ha]
  simp

/-- When the first matching plain entry is `e` (everything before it
fails the scan) and no customization is passed, `addToCart` bumps
the quantity of exactly that entry. -/
theorem addToCart_merge_at (c₁ : List CartItem) (e : CartItem) (c₂ : List CartItem)
    (p : Product) (q : ℤ)
    (h₁ : ∀ b ∈ c₁, ¬ (b.pid = p.pid ∧ b.customCoffee = none))
    (he : e.pid = p.pid) (hce : e.customCoffee = none) :
    addToCart (c₁ ++ e :: c₂) p q none = c₁ ++ { e with quantity := e.quantity + q } :: c₂ := by
  have hfind : (c₁ ++ e :: c₂).findIdx?
      (fun item => item.pid == p.pid && item.customCoffee.isNone) = some c₁.length := by
    apply findIdx?_prefix_none_cons_true
    · intro b hb
      rw [matchBool_eq_false_iff]
      exact h₁ b hb
    · simp [he, hce]
  rw [addToCart_merge_eq _ p q _ hfind, withQty_at_append]

theorem applyAdds_accumulate (pid : String) :
    ∀ (adds : List (Product × ℤ)) (c₁ : List CartItem) (e : CartItem),
      (∀ b ∈ c₁, b.pid ≠ pid) → e.pid = pid → e.customCoffee = none →
      (∀ pq ∈ adds, pq.1.pid = pid) →
      applyAdds (c₁ ++ [e]) adds
        = c₁ ++ [{ e with quantity := e.quantity + (adds.map Prod.snd).sum }]
  | [], c₁, e, _, _, _, _ => by
    show c₁ ++ [e] = c₁ ++ [{ e with quantity := e.quantity + (List.map Prod.snd []).sum }]
    obtain ⟨_, _, _, _, _, _, _, _, _⟩ := e
    simp
  | (p, q) :: adds, c₁, e, h₁, he, hce, hadds => by
    have hp : p.pid = pid := hadds (p, q) (List.mem_cons_self _ _)
    show applyAdds (addToCart (c₁ ++ e :: []) p q none) adds = _
    rw [addToCart_merge_at c₁ e [] p q
      (fun b hb hclash => (h₁ b hb) (hclash.1.trans hp)) (he.trans hp.symm) hce]
    rw [applyAdds_accumulate pid adds c₁ { e with quantity := e.quantity + q }
      h₁ (by simpa using he) (by simpa using hce)
      (fun pq hpq => hadds pq (List.mem_cons_of_mem _ hpq))]
    simp [add_assoc]

theorem filter_pid_append (c : List CartItem) (e : CartItem) (pid : String)
    (hc : ∀ b ∈ c, b.pid ≠ pid) (he : e.pid = pid) :
    (c ++ [e]).filter (fun it => it.pid == pid) = [e] := by
  rw [List.filter_append]
  have h1 : c.filter (fun it => it.pid == pid) = [] := by
    rw [List.filter_eq_nil_iff]
    intro b hb
    simpa using hc b hb
  rw [h1]
  simp [he]

theorem reachable_cartInv : ∀ (c : List CartItem), ReachableCart c → CartInv c := by
  intro c h
  induction h with
  | empty => exact List.Pairwise.nil
  | add c p q cc _ ih => exact cartInv_addToCart c p q cc ih
  | remove c i _ ih => exact cartInv_removeFromCart c i ih
  | update c i q c' _ heq ih =>
    simp only [updateQuantity] at heq
    by_cases hq : q ≤ 0
    · rw [if_pos hq] at heq
      cases heq
      exact cartInv_removeFromCart c i ih
    · rw [if_neg hq] at heq
      by_cases hr : 0 ≤ i ∧ i < (c.length : ℤ)
      · rw [if_pos hr] at heq
        cases heq
        exact cartInv_withQty _ c i.toNat ih
      · rw [if_neg hr] at heq
        cases heq
  | clear c _ _ => exact List.Pairwise.nil

/-! Claim theorems. -/

/-- C2: for every cart state (so in particular for every state reached
by interleaved `addItem`/`updateQuantity`/`removeItem` sequences),
`getCartTotal` returns Σ(item.price × item.quantity) over all entries
and `getCartCount` returns Σ(item.quantity) over all entries. -/
theorem cartTotal_and_count_are_sums (cart : List CartItem) :
    getCartTotal cart = (cart.map (fun item => item.price * (item.quantity : ℚ))).sum
    ∧ getCartCount cart = (cart.map (fun item => item.quantity)).sum := by
  constructor
  · have h := foldl_add_eq_add_sum (fun item : CartItem => item.price * (item.quantity : ℚ)) cart 0
    rw [zero_add] at h
    exact h
  · have h := foldl_add_eq_add_sum (fun item : CartItem => item.quantity) cart 0
    rw [zero_add] at h
    exact h

/-- C3: on a non-2xx HTTP status `handleCheckout` leaves the cart
unchanged and shows the "failed to place order" toast; on a rejected
network call it leaves the cart unchanged and shows the distinct
"network error" toast; in both cases the result is a normal return
(`Except.ok`), never a re-thrown exception, and no success timeout is
scheduled. -/
theorem handleCheckout_failure_paths :
    (∀ (cart : List CartItem) (status : ℕ), responseOk status = false →
      handleCheckout cart (.response status)
        = .ok { toast := "Failed to place order. Please try again.", cart := cart,
                clearScheduled := false })
    ∧ (∀ (cart : List CartItem) (msg : String),
      handleCheckout cart (.netError msg)
        = .ok { toast := "Error placing order. Please try again.", cart := cart,
                clearScheduled := false })
    ∧ "Failed to place order. Please try again." ≠ "Error placing order. Please try again." := by
  refine ⟨?_, ?_, ?_⟩
  · intro cart status h
    simp [handleCheckout, awaitFetch, h]
  · intro cart msg
    simp [handleCheckout, awaitFetch]
  · decide

/-- C3 witness: a concrete 500 response and a concrete network error. -/
theorem handleCheckout_failure_paths_witness :
    responseOk 500 = false
    ∧ handleCheckout [] (.response 500)
      = .ok { toast := "Failed to place order. Please try again.", cart := [],
              clearScheduled := false } :=
  ⟨by decide, handleCheckout_failure_paths.1 [] 500 (by decide)⟩

/-- C5 (code-bug evaluation): the mount effect does default to an
empty cart when the slot is absent, but on corrupt (unparseable) slot
data `JSON.parse` throws and nothing catches the exception — the load
does not degrade to an empty cart, contradicting the claim. -/
theorem loadCart_corrupt_slot_throws :
    loadCart (some .badJson) = .error "SyntaxError"
    ∧ loadCart (some .badJson) ≠ .ok []
    ∧ loadCart none = .ok [] := by
  refine ⟨rfl, ?_, rfl⟩
  intro h
  simp [loadCart, truthyStr, jsonParse] at h

/-- C7: `updateQuantity(index, q)` with `q ≤ 0` produces exactly the
same cart as `removeItem(index)`, for every cart and every index; and
for an in-range index the removal drops exactly the entry at that
index, so the length decreases by one. -/
theorem updateQuantity_nonpos_equals_removeItem :
    (∀ (cart : List CartItem) (index q : ℤ), q ≤ 0 →
      updateQuantity cart index q = .ok (removeFromCart cart index))
    ∧ (∀ (cart : List CartItem) (index : ℤ), 0 ≤ index → index < (cart.length : ℤ) →
      (removeFromCart cart index).length = cart.length - 1
      ∧ removeFromCart cart index = cart.take index.toNat ++ cart.drop (index.toNat + 1)) := by
  constructor
  · intro cart index q hq
    simp [updateQuantity, hq]
  · intro cart index h0 hlt
    have heq := removeFromCart_eq_dropIdxZ cart index
    have hdrop := dropIdxZ_in_range cart index h0 hlt
    refine ⟨?_, by rw [heq, hdrop]⟩
    rw [heq, hdrop, List.length_append, List.length_take, List.length_drop]
    have : index.toNat < cart.length := by omega
    omega

/-- C7 witness: a concrete one-item cart, `updateQuantity 0 0`. -/
theorem updateQuantity_nonpos_equals_removeItem_witness :
    updateQuantity [⟨"1", "Espresso", "Coffee", 3.99, "d", "img", true, 1, none⟩] 0 0
      = .ok (removeFromCart [⟨"1", "Espresso", "Coffee", 3.99, "d", "img", true, 1, none⟩] 0)
    ∧ (removeFromCart [⟨"1", "Espresso", "Coffee", 3.99, "d", "img", true, 1, none⟩] 0).length
      = 0 := by
  constructor
  · exact updateQuantity_nonpos_equals_removeItem.1 _ 0 0 (by norm_num)
  · have h := (updateQuantity_nonpos_equals_removeItem.2
      [⟨"1", "Espresso", "Coffee", 3.99, "d", "img", true, 1, none⟩] 0
      (by norm_num) (by norm_num)).1
    simpa using h

/-- C10: for an index outside `[0, cart length)` and a positive new
quantity, `updateQuantity` throws a `TypeError` (it dereferences a
non-existent entry), while `removeFromCart` at the same index is a safe
no-op. -/
theorem updateQuantity_out_of_range_throws :
    ∀ (cart : List CartItem) (index q : ℤ),
      (index < 0 ∨ (cart.length : ℤ) ≤ index) → 0 < q →
      updateQuantity cart index q = .error "TypeError"
      ∧ removeFromCart cart index = cart := by
  intro cart index q hidx hq
  constructor
  · simp only [updateQuantity, if_neg (show ¬ q ≤ 0 by omega)]
    rw [if_neg (show ¬ (0 ≤ index ∧ index < (cart.length : ℤ)) by omega)]
  · rw [removeFromCart_eq_dropIdxZ]
    rcases hidx with h | h
    · exact dropIdxZ_neg cart index h
    · exact dropIdxZ_ge cart index h

/-- C10 witness: index 5 on a one-item cart. -/
theorem updateQuantity_out_of_range_throws_witness :
    updateQuantity [⟨"1", "Espresso", "Coffee", 3.99, "d", "img", true, 1, none⟩] 5 1
      = .error "TypeError"
    ∧ removeFromCart [⟨"1", "Espresso", "Coffee", 3.99, "d", "img", true, 1, none⟩] 5
      = [⟨"1", "Espresso", "Coffee", 3.99, "d", "img", true, 1, none⟩] :=
  updateQuantity_out_of_range_throws _ 5 1 (Or.inr (by norm_num)) (by norm_num)

/-- C4 (code-bug evaluation): the component has no in-flight flag, and
the "Place Order" button stays rendered while a submission is pending
(`showCheckout` remains `true` until the success timeout fires or the
user cancels).  A second confirm press before resolution therefore
issues a second order-creation call: starting from a non-empty cart,
pressing "Proceed to Checkout" and then "Place Order" twice leaves two
network calls outstanding, where the claim requires at most one. -/
theorem placeOrder_double_press_fires_two_requests :
    (cartViewRun
      { cart := [⟨"1", "Espresso", "Coffee", 3.99, "d", "img", true, 2, none⟩],
        showCheckout := false, inFlight := 0 }
      [.proceed, .placeOrder, .placeOrder]).inFlight = 2 ∧ ¬ (2 ≤ 1) := by
  constructor
  · rfl
  · decide

/-- C8: an `addItem` call carrying a (non-empty) customization always
appends a fresh entry — the cart grows by exactly one — and never
merges, even when an existing entry has the same product id or
identical customization content (the scan in the source only ever
merges entries *lacking* a customization). -/
theorem addItem_customization_appends_new_entry :
    ∀ (cart : List CartItem) (p : Product) (q : ℤ) (x : Customization),
      x.entries ≠ [] →
      addToCart cart p q (some x) = cart ++ [mkItem p q (some x)]
      ∧ (addToCart cart p q (some x)).length = cart.length + 1 := by
  intro cart p q x _
  refine ⟨addToCart_custom_eq cart p q x, ?_⟩
  rw [addToCart_custom_eq cart p q x]
  simp

/-- C8 witness: adding a custom coffee identical (same id, same
customization content) to one already in the cart still appends. -/
theorem addItem_customization_appends_new_entry_witness :
    (addToCart
      [mkItem ⟨"cc", "Custom Coffee", "Coffee", 5.99, "d", "img", true⟩ 1
        (some ⟨[("sugar", "2")]⟩)]
      ⟨"cc", "Custom Coffee", "Coffee", 5.99, "d", "img", true⟩ 1
      (some ⟨[("sugar", "2")]⟩)).length = 2 := by
  have h := (addItem_customization_appends_new_entry
    [mkItem ⟨"cc", "Custom Coffee", "Coffee", 5.99, "d", "img", true⟩ 1
      (some ⟨[("sugar", "2")]⟩)]
    ⟨"cc", "Custom Coffee", "Coffee", 5.99, "d", "img", true⟩ 1
    ⟨[("sugar", "2")]⟩ (by simp)).2
  simpa using h

/-- C9: over the reachable option states of the builder (sugar 0–5, milk in
{none, regular, oat}, coffee shots 1–4, chocolate 0–5) the computed
price equals 3.50 + 0.25·sugar + (0 / 0.50 / 0.75 by milk) +
0.75·(coffee − 1) + 0.50·chocolate, and the price is monotonically
non-decreasing in each numeric option. -/
theorem calculatePrice_formula_and_monotonicity :
    (∀ (sugar coffee chocolate : ℤ) (milk : String),
      0 ≤ sugar → sugar ≤ 5 → (milk = "none" ∨ milk = "regular" ∨ milk = "oat") →
      1 ≤ coffee → coffee ≤ 4 → 0 ≤ chocolate → chocolate ≤ 5 →
      calculatePrice sugar milk coffee chocolate
        = 3.50 + 0.25 * (sugar : ℚ)
          + (if milk = "regular" then 0.50 else if milk = "oat" then 0.75 else 0)
          + 0.75 * ((coffee : ℚ) - 1) + 0.50 * (chocolate : ℚ))
    ∧ (∀ (s t c ch : ℤ) (milk : String), s ≤ t →
        calculatePrice s milk c ch ≤ calculatePrice t milk c ch)
    ∧ (∀ (s c d ch : ℤ) (milk : String), c ≤ d →
        calculatePrice s milk c ch ≤ calculatePrice s milk d ch)
    ∧ (∀ (s c ch dh : ℤ) (milk : String), ch ≤ dh →
        calculatePrice s milk c ch ≤ calculatePrice s milk c dh) := by
  refine ⟨?_, ?_, ?_, ?_⟩
  · intro sugar coffee chocolate milk _ _ hmilk _ _ _ _
    rcases hmilk with h | h | h <;> subst h <;> simp [calculatePrice] <;> ring
  · intro s t c ch milk h
    simp only [calculatePrice]
    have hc : (s : ℚ) ≤ t := by exact_mod_cast h
    linarith
  · intro s c d ch milk h
    simp only [calculatePrice]
    have hc : (c : ℚ) ≤ d := by exact_mod_cast h
    linarith
  · intro s c ch dh milk h
    simp only [calculatePrice]
    have hc : (ch : ℚ) ≤ dh := by exact_mod_cast h
    linarith

/-- C9 witness: 2 sugars, oat milk, 2 shots, 1 chocolate pump prices at
6.00, and price is monotone in sugar at the extremes of its range. -/
theorem calculatePrice_formula_witness :
    calculatePrice 2 "oat" 2 1 = 6
    ∧ calculatePrice 0 "none" 1 0 ≤ calculatePrice 5 "none" 1 0 := by
  constructor
  · have h := calculatePrice_formula_and_monotonicity.1 2 2 1 "oat"
      (by norm_num) (by norm_num) (Or.inr (Or.inr rfl)) (by norm_num) (by norm_num)
      (by norm_num) (by norm_num)
    rw [h, if_neg (by decide), if_pos rfl]
    norm_num
  · exact calculatePrice_formula_and_monotonicity.2.1 0 5 1 0 "none" (by norm_num)

/-- C1 counterexample: starting from a cart that already holds a plain
entry for product id "1" with quantity 1, a single
`addItem(product "1", 2)` leaves the unique entry for that id at
quantity 3 — not 2, the sum of the requested quantities — so the claim
fails for an arbitrary starting cart. -/
theorem addItem_sum_fails_from_preoccupied_cart :
    ((applyAdds [⟨"1", "Espresso", "Coffee", 3.99, "d", "img", true, 1, none⟩]
        [(⟨"1", "Espresso", "Coffee", 3.99, "d", "img", true⟩, 2)]).filter
      (fun it => it.pid == "1")).map CartItem.quantity = [3]
    ∧ ([3] : List ℤ) ≠ [2] := by
  constructor
  · rfl
  · decide

/-- C1 (amended): starting from a cart with **no entry for the fixed
product id**, any non-empty sequence of `addItem` calls with no
customization and that product id leaves exactly one entry for that id,
with quantity the sum of all requested quantities; and every cart state
reachable through the store operations has no two entries that share
a product id while both lack a customization. -/
theorem addItem_fixed_id_accumulates_no_duplicates :
    (∀ (cart : List CartItem) (pid : String) (adds : List (Product × ℤ)),
      adds ≠ [] → (∀ pq ∈ adds, pq.1.pid = pid) → (∀ a ∈ cart, a.pid ≠ pid) →
      ((applyAdds cart adds).filter (fun it => it.pid == pid)).map CartItem.quantity
        = [(adds.map Prod.snd).sum])
    ∧ (∀ c, ReachableCart c → CartInv c) := by
  constructor
  · intro cart pid adds hne hadds hcart
    rcases adds with _ | ⟨⟨p, q⟩, adds⟩
    · exact absurd rfl hne
    · have hp : p.pid = pid := hadds (p, q) (List.mem_cons_self _ _)
      have hstep : addToCart cart p q none = cart ++ [mkItem p q none] := by
        apply addToCart_no_match_eq
        rw [List.findIdx?_eq_none_iff]
        intro b hb
        rw [matchBool_eq_false_iff]
        rintro ⟨hbp, -⟩
        exact hcart b hb (hbp.trans hp)
      have h1 : applyAdds cart ((p, q) :: adds)
          = applyAdds (cart ++ [mkItem p q none]) adds := by
        show applyAdds (addToCart cart p q none) adds = _
        rw [hstep]
      have hacc := applyAdds_accumulate pid adds cart (mkItem p q none) hcart
        (by simpa [mkItem] using hp) rfl
        (fun pq hpq => hadds pq (List.mem_cons_of_mem _ hpq))
      rw [h1, hacc]
      rw [filter_pid_append cart _ pid hcart (by simpa [mkItem] using hp)]
      simp [mkItem]
  · exact fun c h => reachable_cartInv c h

/-- C1 witness: two merging adds of product "1" from the empty cart,
and the invariant at a concrete reachable cart. -/
theorem addItem_fixed_id_accumulates_witness :
    ((applyAdds [] [(⟨"1", "Espresso", "Coffee", 3.99, "d", "img", true⟩, 2),
        (⟨"1", "Espresso", "Coffee", 3.99, "d", "img", true⟩, 3)]).filter
      (fun it => it.pid == "1")).map CartItem.quantity = [5]
    ∧ CartInv (addToCart [] ⟨"1", "Espresso", "Coffee", 3.99, "d", "img", true⟩ 2 none) := by
  constructor
  · have h := addItem_fixed_id_accumulates_no_duplicates.1 []
      "1" [(⟨"1", "Espresso", "Coffee", 3.99, "d", "img", true⟩, 2),
        (⟨"1", "Espresso", "Coffee", 3.99, "d", "img", true⟩, 3)]
      (by simp) (by simp) (by simp)
    simpa using h
  · exact addItem_fixed_id_accumulates_no_duplicates.2 _
      (ReachableCart.add _ _ 2 none ReachableCart.empty)

/-- C6 counterexample: the source tests `!customCoffee`, and an empty
JavaScript object is truthy, so `addItem` with an **empty-object**
customization appends a second entry instead of incrementing the
existing plain entry with the same product id. -/
theorem addItem_empty_object_customization_appends :
    (addToCart [⟨"1", "Espresso", "Coffee", 3.99, "d", "img", true, 1, none⟩]
      ⟨"1", "Espresso", "Coffee", 3.99, "d", "img", true⟩ 1 (some ⟨[]⟩)).length = 2
    ∧ (2 : ℕ) ≠ 1 := by
  constructor
  · rfl
  · decide

/-- C6 (amended): when the customization argument is null (JavaScript
falsy — an empty object does **not** qualify) and the cart holds an
entry with the same product id and no customization, `addItem`
increments the quantity of the first such entry in place instead of
appending, leaving the cart length unchanged. -/
theorem addItem_null_customization_merges :
    ∀ (c₁ c₂ : List CartItem) (e : CartItem) (p : Product) (q : ℤ),
      (∀ b ∈ c₁, ¬ (b.pid = p.pid ∧ b.customCoffee = none)) →
      e.pid = p.pid → e.customCoffee = none →
      addToCart (c₁ ++ e :: c₂) p q none = c₁ ++ { e with quantity := e.quantity + q } :: c₂
      ∧ (addToCart (c₁ ++ e :: c₂) p q none).length = (c₁ ++ e :: c₂).length := by
  intro c₁ c₂ e p q h₁ he hce
  have h := addToCart_merge_at c₁ e c₂ p q h₁ he hce
  refine ⟨h, ?_⟩
  rw [h]
  simp

/-- C6 witness: adding 2 more of product "1" to a cart already holding
1 of it (plain, no customization) yields a single entry of quantity 3. -/
theorem addItem_null_customization_merges_witness :
    addToCart [⟨"1", "Espresso", "Coffee", 3.99, "d", "img", true, 1, none⟩]
      ⟨"1", "Espresso", "Coffee", 3.99, "d", "img", true⟩ 2 none
      = [⟨"1", "Espresso", "Coffee", 3.99, "d", "img", true, 3, none⟩] := by
  have h := (addItem_null_customization_merges [] []
    ⟨"1", "Espresso", "Coffee", 3.99, "d", "img", true, 1, none⟩
    ⟨"1", "Espresso", "Coffee", 3.99, "d", "img", true⟩ 2
    (by simp) rfl rfl).1
  simpa using h

end DemoShop
